import Mathlib

/-!
Verification of the otter scaling-group core against its specification.

The definitions below are a shallow embedding of the Python sources:

* otter/models/interface.py — GroupState with its mutators (add_job,
  remove_job, add_active, remove_active, mark_executed, get_capacity)
  and the attrs-generated constructor;
* otter/convergence/errors.py — present_reasons and the
  singledispatch function it relies on;
* otter/util/http.py — the body parsing of UpstreamError,
  append_segments, get_collection_links and the capability link built
  by get_autoscale_links.

Python dictionaries are modelled as insertion-ordered association lists
(List (String × α)); where key uniqueness matters it appears as an
explicit Nodup hypothesis on the key list.  The injected clock callable
GroupState.now is modelled as a stream clock : Nat → String together
with a counter tick counting how many times the clock was read, so that
reading the clock exactly once is expressible.  Code that raises
returns Except.
-/

namespace Otter

/-- Status constants ScalingGroupStatus from otter/models/interface.py. -/
inductive ScalingGroupStatus where
  | ACTIVE
  | ERROR
  | DELETING
deriving DecidableEq, Repr

/-- Model of a Python AssertionError with its message (the mutators of
GroupState raise these via assert). -/
structure AssertionError where
  msg : String
deriving DecidableEq, Repr

/-- Model of a Python TypeError with its message (raised by attrs
validators and by calling a callable with the wrong number of
arguments). -/
structure PyTypeError where
  msg : String
deriving DecidableEq, Repr

/-- Info dictionaries (server_info and the created-timestamp job
records): string-valued association lists in insertion order. -/
abbrev Info := List (String × String)

/-- State class GroupState from otter/models/interface.py (the attrs
class).  active, pending and policy_touched are insertion-ordered
dicts; clock and tick model the injected now callable: the n-th call of
self.now() returns clock n. -/
structure GroupState where
  tenant_id : String
  group_id : String
  group_name : String
  active : List (String × Info)
  pending : List (String × Info)
  group_touched : String
  policy_touched : List (String × String)
  paused : Bool
  status : ScalingGroupStatus
  suspended : Bool
  error_reasons : List String
  desired : Int
  clock : Nat → String
  tick : Nat

/-- One call of self.now(): returns the current clock value and the
state with the read counted. -/
def GroupState.now_call (s : GroupState) : String × GroupState :=
  (s.clock s.tick, { s with tick := s.tick + 1 })

/-- Python dict assignment d[k] = v: replaces the value in place if the
key is present (insertion order kept), otherwise appends at the end. -/
def dictSet (l : List (String × String)) (k v : String) : List (String × String) :=
  if (l.lookup k).isSome then
    l.map (fun kv => if kv.1 = k then (k, v) else kv)
  else
    l ++ [(k, v)]

/-- Python d.setdefault(k, v): adds the pair only when k is absent. -/
def dictSetdefault (info : Info) (k v : String) : Info :=
  if (info.lookup k).isSome then info else info ++ [(k, v)]

/-- Method GroupState.remove_job (interface.py:95-105): asserts the job
is pending, then deletes it. -/
def GroupState.remove_job (s : GroupState) (job_id : String) :
    Except AssertionError GroupState :=
  if (s.pending.lookup job_id).isSome then
    .ok { s with pending := s.pending.filter (fun kv => kv.1 ≠ job_id) }
  else
    .error ⟨"Job doesn\x27t exist: " ++ job_id⟩

/-- Method GroupState.add_job (interface.py:107-117): asserts the job is
not pending, then stores a dict holding the created timestamp read from
self.now() under it. -/
def GroupState.add_job (s : GroupState) (job_id : String) :
    Except AssertionError GroupState :=
  if (s.pending.lookup job_id).isSome then
    .error ⟨"Job exists: " ++ job_id⟩
  else
    let (t, s') := s.now_call
    .ok { s' with pending := s'.pending ++ [(job_id, [("created", t)])] }

/-- Method GroupState.add_active (interface.py:119-132): asserts the
server is not active, evaluates self.now() (the setdefault argument is
always evaluated), defaults the created key, and stores the info. -/
def GroupState.add_active (s : GroupState) (server_id : String)
    (server_info : Info) : Except AssertionError GroupState :=
  if (s.active.lookup server_id).isSome then
    .error ⟨"Server already exists: " ++ server_id⟩
  else
    let (t, s') := s.now_call
    .ok { s' with
          active := s'.active ++ [(server_id, dictSetdefault server_info "created" t)] }

/-- Method GroupState.remove_active (interface.py:134-142). -/
def GroupState.remove_active (s : GroupState) (server_id : String) :
    Except AssertionError GroupState :=
  if (s.active.lookup server_id).isSome then
    .ok { s with active := s.active.filter (fun kv => kv.1 ≠ server_id) }
  else
    .error ⟨"Server does not exist: " ++ server_id⟩

/-- Method GroupState.mark_executed (interface.py:144-152): the chained
assignment writes one self.now() read to policy_touched[policy_id] and
to group_touched. -/
def GroupState.mark_executed (s : GroupState) (policy_id : String) : GroupState :=
  let (t, s') := s.now_call
  { s' with
    policy_touched := dictSet s'.policy_touched policy_id t
    group_touched := t }

/-- Method GroupState.get_capacity (interface.py:154-163), the returned
dict as an ordered association list. -/
def GroupState.get_capacity (s : GroupState) : List (String × Nat) :=
  [("current_capacity", s.active.length),
   ("pending_capacity", s.pending.length),
   ("desired_capacity", s.active.length + s.pending.length)]

/-- Key set of a dict. -/
def keysOf (l : List (String × α)) : Finset String :=
  (l.map Prod.fst).toFinset

/-- Keys of the pending dict. -/
def GroupState.pendingKeys (s : GroupState) : Finset String := keysOf s.pending

/-- Keys of the active dict. -/
def GroupState.activeKeys (s : GroupState) : Finset String := keysOf s.active

/-- One call of the four collection mutators of GroupState. -/
inductive GroupOp where
  | addJob (j : String)
  | removeJob (j : String)
  | addActive (sid : String) (info : Info)
  | removeActive (sid : String)

/-- Run of one mutator call; an AssertionError propagates to the caller
and leaves the state unchanged (the raise happens before any mutation). -/
def stepOp (s : GroupState) : GroupOp → GroupState
  | .addJob j =>
    match s.add_job j with
    | .ok s' => s'
    | .error _ => s
  | .removeJob j =>
    match s.remove_job j with
    | .ok s' => s'
    | .error _ => s
  | .addActive sid info =>
    match s.add_active sid info with
    | .ok s' => s'
    | .error _ => s
  | .removeActive sid =>
    match s.remove_active sid with
    | .ok s' => s'
    | .error _ => s

/-- Run of a sequence of mutator calls. -/
def runOps (s : GroupState) (ops : List GroupOp) : GroupState :=
  ops.foldl stepOp s

/-- Spec-side reference (from the words of the claim): the pending keys
added and not subsequently removed by a call sequence. -/
def netPendingKeys (init : Finset String) : List GroupOp → Finset String
  | [] => init
  | .addJob j :: rest => netPendingKeys (insert j init) rest
  | .removeJob j :: rest => netPendingKeys (init.erase j) rest
  | .addActive _ _ :: rest => netPendingKeys init rest
  | .removeActive _ :: rest => netPendingKeys init rest

/-- Spec-side reference (from the words of the claim): the active keys
added and not subsequently removed by a call sequence. -/
def netActiveKeys (init : Finset String) : List GroupOp → Finset String
  | [] => init
  | .addJob _ :: rest => netActiveKeys init rest
  | .removeJob _ :: rest => netActiveKeys init rest
  | .addActive sid _ :: rest => netActiveKeys (insert sid init) rest
  | .removeActive sid :: rest => netActiveKeys (init.erase sid) rest

/-- All job ids passed to add_job in a call sequence. -/
def jobAddIds : List GroupOp → Finset String
  | [] => ∅
  | .addJob j :: rest => insert j (jobAddIds rest)
  | .removeJob _ :: rest => jobAddIds rest
  | .addActive _ _ :: rest => jobAddIds rest
  | .removeActive _ :: rest => jobAddIds rest

/-- All server ids passed to add_active in a call sequence. -/
def activeAddIds : List GroupOp → Finset String
  | [] => ∅
  | .addJob _ :: rest => activeAddIds rest
  | .removeJob _ :: rest => activeAddIds rest
  | .addActive sid _ :: rest => insert sid (activeAddIds rest)
  | .removeActive _ :: rest => activeAddIds rest

/-- Sample states used to instantiate hypotheses of the proved theorems
on concrete inputs. -/
def mkSample (active pending : List (String × Info)) : GroupState :=
  { tenant_id := "tid"
    group_id := "gid"
    group_name := "name"
    active := active
    pending := pending
    group_touched := "0001-01-01T00:00:00Z"
    policy_touched := []
    paused := false
    status := .ACTIVE
    suspended := false
    error_reasons := []
    desired := 0
    clock := fun n => "2015-01-01T00:00:0" ++ toString n ++ "Z"
    tick := 0 }

/-- Modelled from the spec: the constant otter.util.timestamp.MIN is not
among the source files; the spec fixes the sentinel
0001-01-01T00:00:00Z for a group that was never touched. -/
def timestampMIN : String := "0001-01-01T00:00:00Z"

/-- Modelled from the spec: lenient_ascii_text (imported by interface.py
from otter.util.http) is not among the source lines; per the spec a
non-empty timestamp string passed to the constructor is stored unchanged
as ascii text, so on text it is the identity. -/
def lenient_ascii_text (s : String) : String := s

/-- Python expression t or d for an optional string t: None and the
empty string are falsy. -/
def pyOrStr (t : Option String) (d : String) : String :=
  match t with
  | none => d
  | some s => if s = "" then d else s

/-- Runtime type tag of the Python value passed for the desired
attribute, as far as the instance_of(int) validator distinguishes it. -/
inductive PyVal where
  | int (i : Int)
  | str (s : String)
  | noneVal
deriving DecidableEq, Repr

/-- Constructor of GroupState as generated by attrs
(interface.py:76-93): group_touched goes through the convert
lenient_ascii_text(t or timestamp.MIN) (interface.py:84-86); desired is
checked only by the validator instance_of(int) (interface.py:92), which
raises TypeError for a non-int and accepts every int. -/
def mkGroupState (tenant_id group_id group_name : String)
    (active pending : List (String × Info)) (group_touched : Option String)
    (policy_touched : List (String × String)) (paused : Bool)
    (status : ScalingGroupStatus) (suspended : Bool)
    (error_reasons : List String) (desired : PyVal) (clock : Nat → String) :
    Except PyTypeError GroupState :=
  match desired with
  | .int d => .ok
    { tenant_id := lenient_ascii_text tenant_id
      group_id := lenient_ascii_text group_id
      group_name := lenient_ascii_text group_name
      active := active
      pending := pending
      group_touched := lenient_ascii_text (pyOrStr group_touched timestampMIN)
      policy_touched := policy_touched
      paused := paused
      status := status
      suspended := suspended
      error_reasons := error_reasons
      desired := d
      clock := clock
      tick := 0 }
  | _ => .error ⟨"\x27desired\x27 must be <type \x27int\x27>"⟩

/-- Modelled from the spec: the CLB exception classes of
otter.cloud_client are not among the source files; per the spec they
carry the load-balancer id lb_id.  The otherExc constructor stands for
an exception of any other class (the singledispatch base case). -/
inductive CloudException where
  | noSuchCLBError (lb_id : String)
  | clbDeletedError (lb_id : String)
  | otherExc (desc : String)

/-- Triple exc_info carried by the Exception variant of ErrorReason; the
code in errors.py uses only index 1, the exception value. -/
structure ExcInfo where
  excType : String
  value : CloudException
  traceback : String

/-- Modelled from the spec: ErrorReason of otter.convergence.model is
not among the source files; the spec describes it as a tagged variant
with an Exception case among others.  The otherReason constructor
stands for every non-Exception variant, all of which the match in
errors.py sends to None. -/
inductive ErrorReason where
  | exception (info : ExcInfo)
  | otherReason (tag : String)

/-- Dispatch function _present_exception (errors.py:19-33): registered
formatters for the two CLB exception classes, None for any other
exception class (the singledispatch base case). -/
def present_exception : CloudException → Option String
  | .noSuchCLBError i => some ("Cloud Load Balancer does not exist: " ++ i)
  | .clbDeletedError i => some ("Cloud Load Balancer is currently being deleted: " ++ i)
  | .otherExc _ => none

/-- Match class _present_reason (errors.py:12-15): on the Exception
variant it formats the exception value exc_info[1]; every other variant
yields None. -/
def present_reason : ErrorReason → Option String
  | .exception info => present_exception info.value
  | .otherReason _ => none

/-- Predicate argument handed to the Python builtin filter: the idiom
filter(None, xs) uses the builtin None, while errors.py:16 passes the
zero-argument callable written as a lambda returning None. -/
inductive FilterFunc where
  | noneBuiltin
  | zeroArgLambda

/-- Python truthiness of an optional string: None and the empty string
are falsy. -/
def pyTruthy : Option String → Bool
  | none => false
  | some s => s != ""

/-- Python builtin filter(f, xs) for the two predicates above.  With
None it keeps the truthy elements.  With a zero-argument callable it
raises TypeError as soon as it applies the callable to an element, so
every non-empty list raises and only the empty list returns. -/
def pyFilter (f : FilterFunc) (xs : List (Option String)) :
    Except PyTypeError (List (Option String)) :=
  match f with
  | .noneBuiltin => .ok (xs.filter pyTruthy)
  | .zeroArgLambda =>
    match xs with
    | [] => .ok []
    | _ :: _ => .error ⟨"<lambda>() takes no arguments (1 given)"⟩

/-- Function present_reasons (errors.py:8-16): maps _present_reason over
the reasons and then calls filter with the zero-argument lambda exactly
as the source line 16 is written. -/
def present_reasons (reasons : List ErrorReason) :
    Except PyTypeError (List (Option String)) :=
  pyFilter .zeroArgLambda (reasons.map present_reason)

/-- Values of parsed JSON documents. -/
inductive JValue where
  | jnull
  | jbool (b : Bool)
  | jnum (n : Int)
  | jstr (s : String)
  | jarr (elements : List JValue)
  | jobj (entries : List (String × JValue))

/-- Body parsing of UpstreamError._parse_message (http.py:40-45).  The
argument is the outcome of json.loads(body): none when the body is not
valid JSON (the call raises).  The code reads the message key of the
value under the first key of the parsed object inside a bare except, so
every failure — body not an object (keys() raises), empty object
(index 0 raises IndexError), first value not an object or without a
message key (TypeError / KeyError) — yields the literal fallback
string. -/
def parse_api_error_message (parsed : Option JValue) : JValue :=
  match parsed with
  | some (.jobj ((_, .jobj inner) :: _)) =>
    match inner.lookup "message" with
    | some m => m
    | none => .jstr "Could not parse API error body"
  | _ => .jstr "Could not parse API error body"

/-- Record of a paginated collection: a dict that has an id in it (the
docstring of get_collection_links); fields other than id are opaque. -/
structure CollRec where
  id : String
  extra : List (String × String)
deriving DecidableEq, Repr

/-- Entry of a links list: href and rel. -/
structure Link where
  href : String
  rel : String
deriving DecidableEq, Repr

/-- Uppercase hexadecimal digit of a value below 16. -/
def hexDigit (n : Nat) : Char :=
  if n < 10 then Char.ofNat (48 + n) else Char.ofNat (55 + n)

/-- Percent encoding of one byte, uppercase hex as Python urllib
produces. -/
def percentEncodeByte (b : Nat) : String :=
  String.mk ['%', hexDigit (b / 16), hexDigit (b % 16)]

/-- UTF-8 bytes of a character (Python encodes unicode segments to
UTF-8 before quoting). -/
def utf8Bytes (c : Char) : List Nat :=
  let n := c.toNat
  if n < 128 then [n]
  else if n < 2048 then [192 + n / 64, 128 + n % 64]
  else if n < 65536 then [224 + n / 4096, 128 + (n / 64) % 64, 128 + n % 64]
  else [240 + n / 262144, 128 + (n / 4096) % 64, 128 + (n / 64) % 64, 128 + n % 64]

/-- Concatenation of a list of strings. -/
def concatAll : List String → String
  | [] => ""
  | x :: rest => x ++ concatAll rest

/-- Characters urllib.quote_plus leaves unescaped: letters, digits and
the three always-safe punctuation characters. -/
def isQuotePlusSafe (c : Char) : Bool :=
  c.isAlphanum || c = '_' || c = '.' || c = '-'

/-- Python urllib.quote_plus: space becomes a plus sign, safe characters
stay, everything else is percent-encoded bytewise. -/
def quotePlus (s : String) : String :=
  concatAll (s.data.map fun c =>
    if c = ' ' then "+"
    else if isQuotePlusSafe c then String.singleton c
    else concatAll ((utf8Bytes c).map percentEncodeByte))

/-- Query string urlencode of the dict with the limit and marker keys
built at http.py:213-214, serialized in the literal order of the dict
display. -/
def urlencodeLimitMarker (limit : Nat) (marker : String) : String :=
  "limit=" ++ toString limit ++ "&marker=" ++ quotePlus marker

/-- Python expression a or b on optional ints: None and 0 are falsy. -/
def falsyOrNat (a b : Option Nat) : Option Nat :=
  match a with
  | none => b
  | some n => if n = 0 then b else some n

/-- Effective pagination limit (http.py:208): the passed limit if
truthy, else the configured limits.pagination if truthy, else 100. -/
def effectiveLimit (limit cfg : Option Nat) : Nat :=
  (falsyOrNat limit (falsyOrNat cfg (some 100))).getD 100

/-- Python falsiness of the optional marker string. -/
def isFalsyOptStr : Option String → Bool
  | none => true
  | some s => s == ""

/-- Function get_collection_links (http.py:181-216).  The self-style
entry is appended only when the marker is falsy and rel is not None; the
next entry is appended exactly when the collection length has reached
the effective limit, with the id of the record at index limit - 1 as the
next marker.  (The index is in range there since the effective limit is
positive and bounded by the length; the getD default is unreachable.) -/
def get_collection_links (collection : List CollRec) (url : String)
    (rel : Option String) (limit cfg : Option Nat) (marker : Option String) :
    List Link :=
  let lim := effectiveLimit limit cfg
  let links :=
    match rel with
    | some r => if isFalsyOptStr marker then [⟨url, r⟩] else []
    | none => []
  if lim ≤ collection.length then
    links ++ [⟨url ++ "?" ++ urlencodeLimitMarker lim
                (((collection[lim - 1]?).map CollRec.id).getD ""), "next"⟩]
  else links

/-- Characters urllib.quote with the default safe set leaves unescaped:
letters, digits, the three always-safe punctuation characters and the
slash. -/
def isQuoteSafe (c : Char) : Bool :=
  c.isAlphanum || c = '_' || c = '.' || c = '-' || c = '/'

/-- Python urllib.quote with the default safe set, applied bytewise to
the UTF-8 encoding. -/
def pyQuote (s : String) : String :=
  concatAll (s.data.map fun c =>
    if isQuoteSafe c then String.singleton c
    else concatAll ((utf8Bytes c).map percentEncodeByte))

/-- Python s.rstrip applied with the slash character: drops every
trailing slash. -/
def rstripSlashes (s : String) : String :=
  String.mk ((s.data.reverse.dropWhile (fun c => c = '/')).reverse)

/-- Python sep.join(parts). -/
def pyJoin (sep : String) : List String → String
  | [] => ""
  | [x] => x
  | x :: y :: rest => x ++ sep ++ pyJoin sep (y :: rest)

/-- Function append_segments (http.py:86-111): the base uri with
trailing slashes stripped, joined by slashes with each segment quoted. -/
def append_segments (uri : String) (segments : List String) : String :=
  pyJoin "/" (rstripSlashes uri :: segments.map pyQuote)

/-- Capability href built inside get_autoscale_links
(http.py:318-324): append_segments(get_url_root(), api, "execute",
capability_version, capability_hash, "") with api = "v" +
api_version; the configured url_root is a parameter here since the
config module is an external collaborator. -/
def capability_href (url_root api_version capability_version capability_hash : String) :
    String :=
  append_segments url_root
    ["v" ++ api_version, "execute", capability_version, capability_hash, ""]

theorem string_lookup_cons (k k' : String) (v : α) (rest : List (String × α)) :
    (((k', v) :: rest).lookup k) = if k = k' then some v else rest.lookup k := by
  by_cases h : k = k'
  · subst h
    simp [List.lookup]
  · have hb : (k == k') = false := by simp [h]
    simp [List.lookup, hb, h]

theorem mem_keysOf {l : List (String × α)} {k : String} :
    k ∈ keysOf l ↔ (l.lookup k).isSome := by
  induction l with
  | nil => simp [keysOf, List.lookup]
  | cons kv rest ih =>
    obtain ⟨k', v⟩ := kv
    rw [string_lookup_cons]
    by_cases h : k = k'
    · subst h
      simp [keysOf]
    · rw [if_neg h, ← ih]
      simp [keysOf, h]

theorem keysOf_append_single (l : List (String × α)) (k : String) (v : α) :
    keysOf (l ++ [(k, v)]) = insert k (keysOf l) := by
  ext x
  simp [keysOf, or_comm]

theorem keysOf_filter_ne (l : List (String × α)) (k : String) :
    keysOf (l.filter (fun kv => kv.1 ≠ k)) = (keysOf l).erase k := by
  ext x
  simp only [keysOf, List.mem_toFinset, List.mem_map, List.mem_filter, Finset.mem_erase,
    decide_eq_true_eq]
  constructor
  · rintro ⟨⟨a, b⟩, ⟨hmem, hne⟩, rfl⟩
    exact ⟨hne, ⟨(a, b), hmem, rfl⟩⟩
  · rintro ⟨hne, ⟨a, b⟩, hmem, rfl⟩
    exact ⟨(a, b), ⟨hmem, hne⟩, rfl⟩

theorem lookup_dictSet (l : List (String × String)) (k v : String) :
    (dictSet l k v).lookup k = some v := by
  unfold dictSet
  by_cases h : (l.lookup k).isSome
  · rw [if_pos h]
    induction l with
    | nil => simp [List.lookup] at h
    | cons kv rest ih =>
      obtain ⟨k', v'⟩ := kv
      by_cases hk : k = k'
      · subst hk
        simp only [List.map_cons]
        rw [string_lookup_cons]
        simp
      · have hne : ((k', v') : String × String).1 ≠ k := fun hc => hk hc.symm
        have hhead :
            (fun kv : String × String => if kv.1 = k then (k, v) else kv) (k', v')
              = (k', v') := by simp [hne]
        simp only [List.map_cons, hhead]
        rw [string_lookup_cons, if_neg hk]
        apply ih
        rw [string_lookup_cons, if_neg hk] at h
        exact h
  · rw [if_neg h]
    induction l with
    | nil => simp [List.lookup]
    | cons kv rest ih =>
      obtain ⟨k', v'⟩ := kv
      by_cases hk : k = k'
      · exfalso
        apply h
        subst hk
        rw [string_lookup_cons, if_pos rfl]
        simp
      · simp only [List.cons_append]
        rw [string_lookup_cons, if_neg hk]
        apply ih
        intro hc
        apply h
        rw [string_lookup_cons, if_neg hk]
        exact hc

theorem add_job_present (s : GroupState) (j : String) (h : j ∈ s.pendingKeys) :
    s.add_job j = .error ⟨"Job exists: " ++ j⟩ := by
  have hb := mem_keysOf.mp h
  simp [GroupState.add_job, hb]

theorem add_job_absent (s : GroupState) (j : String) (h : j ∉ s.pendingKeys) :
    s.add_job j = .ok { s with
      tick := s.tick + 1
      pending := s.pending ++ [(j, [("created", s.clock s.tick)])] } := by
  have hb : ¬(s.pending.lookup j).isSome = true := fun hc => h (mem_keysOf.mpr hc)
  simp only [GroupState.add_job, GroupState.now_call]
  rw [if_neg hb]

theorem remove_job_present (s : GroupState) (j : String) (h : j ∈ s.pendingKeys) :
    s.remove_job j = .ok { s with pending := s.pending.filter (fun kv => kv.1 ≠ j) } := by
  have hb := mem_keysOf.mp h
  simp [GroupState.remove_job, hb]

theorem remove_job_absent (s : GroupState) (j : String) (h : j ∉ s.pendingKeys) :
    s.remove_job j = .error ⟨"Job doesn\x27t exist: " ++ j⟩ := by
  have hb : ¬(s.pending.lookup j).isSome = true := fun hc => h (mem_keysOf.mpr hc)
  simp only [GroupState.remove_job]
  rw [if_neg hb]

theorem add_active_present (s : GroupState) (sid : String) (info : Info)
    (h : sid ∈ s.activeKeys) :
    s.add_active sid info = .error ⟨"Server already exists: " ++ sid⟩ := by
  have hb := mem_keysOf.mp h
  simp [GroupState.add_active, hb]

theorem add_active_absent (s : GroupState) (sid : String) (info : Info)
    (h : sid ∉ s.activeKeys) :
    s.add_active sid info = .ok { s with
      tick := s.tick + 1
      active := s.active ++ [(sid, dictSetdefault info "created" (s.clock s.tick))] } := by
  have hb : ¬(s.active.lookup sid).isSome = true := fun hc => h (mem_keysOf.mpr hc)
  simp only [GroupState.add_active, GroupState.now_call]
  rw [if_neg hb]

theorem remove_active_present (s : GroupState) (sid : String) (h : sid ∈ s.activeKeys) :
    s.remove_active sid = .ok { s with active := s.active.filter (fun kv => kv.1 ≠ sid) } := by
  have hb := mem_keysOf.mp h
  simp [GroupState.remove_active, hb]

theorem remove_active_absent (s : GroupState) (sid : String) (h : sid ∉ s.activeKeys) :
    s.remove_active sid = .error ⟨"Server does not exist: " ++ sid⟩ := by
  have hb : ¬(s.active.lookup sid).isSome = true := fun hc => h (mem_keysOf.mpr hc)
  simp only [GroupState.remove_active]
  rw [if_neg hb]

theorem pendingKeys_step_addJob (s : GroupState) (j : String) :
    (stepOp s (.addJob j)).pendingKeys = insert j s.pendingKeys := by
  by_cases h : j ∈ s.pendingKeys
  · simp only [stepOp, add_job_present s j h]
    exact (Finset.insert_eq_self.mpr h).symm
  · simp only [stepOp, add_job_absent s j h, GroupState.pendingKeys]
    exact keysOf_append_single s.pending j [("created", s.clock s.tick)]

theorem pendingKeys_step_removeJob (s : GroupState) (j : String) :
    (stepOp s (.removeJob j)).pendingKeys = s.pendingKeys.erase j := by
  by_cases h : j ∈ s.pendingKeys
  · simp only [stepOp, remove_job_present s j h, GroupState.pendingKeys]
    exact keysOf_filter_ne s.pending j
  · simp only [stepOp, remove_job_absent s j h]
    exact (Finset.erase_eq_self.mpr h).symm

theorem pendingKeys_step_addActive (s : GroupState) (sid : String) (info : Info) :
    (stepOp s (.addActive sid info)).pendingKeys = s.pendingKeys := by
  by_cases h : sid ∈ s.activeKeys
  · simp only [stepOp, add_active_present s sid info h]
  · simp only [stepOp, add_active_absent s sid info h, GroupState.pendingKeys]

theorem pendingKeys_step_removeActive (s : GroupState) (sid : String) :
    (stepOp s (.removeActive sid)).pendingKeys = s.pendingKeys := by
  by_cases h : sid ∈ s.activeKeys
  · simp only [stepOp, remove_active_present s sid h, GroupState.pendingKeys]
  · simp only [stepOp, remove_active_absent s sid h]

theorem activeKeys_step_addJob (s : GroupState) (j : String) :
    (stepOp s (.addJob j)).activeKeys = s.activeKeys := by
  by_cases h : j ∈ s.pendingKeys
  · simp only [stepOp, add_job_present s j h]
  · simp only [stepOp, add_job_absent s j h, GroupState.activeKeys]

theorem activeKeys_step_removeJob (s : GroupState) (j : String) :
    (stepOp s (.removeJob j)).activeKeys = s.activeKeys := by
  by_cases h : j ∈ s.pendingKeys
  · simp only [stepOp, remove_job_present s j h, GroupState.activeKeys]
  · simp only [stepOp, remove_job_absent s j h]

theorem activeKeys_step_addActive (s : GroupState) (sid : String) (info : Info) :
    (stepOp s (.addActive sid info)).activeKeys = insert sid s.activeKeys := by
  by_cases h : sid ∈ s.activeKeys
  · simp only [stepOp, add_active_present s sid info h]
    exact (Finset.insert_eq_self.mpr h).symm
  · simp only [stepOp, add_active_absent s sid info h, GroupState.activeKeys]
    exact keysOf_append_single s.active sid
      (dictSetdefault info "created" (s.clock s.tick))

theorem activeKeys_step_removeActive (s : GroupState) (sid : String) :
    (stepOp s (.removeActive sid)).activeKeys = s.activeKeys.erase sid := by
  by_cases h : sid ∈ s.activeKeys
  · simp only [stepOp, remove_active_present s sid h, GroupState.activeKeys]
    exact keysOf_filter_ne s.active sid
  · simp only [stepOp, remove_active_absent s sid h]
    exact (Finset.erase_eq_self.mpr h).symm

theorem pendingKeys_runOps (ops : List GroupOp) (s : GroupState) :
    (runOps s ops).pendingKeys = netPendingKeys s.pendingKeys ops := by
  induction ops generalizing s with
  | nil => rfl
  | cons op rest ih =>
    have h1 : runOps s (op :: rest) = runOps (stepOp s op) rest := rfl
    rw [h1, ih]
    cases op with
    | addJob j => rw [netPendingKeys, pendingKeys_step_addJob]
    | removeJob j => rw [netPendingKeys, pendingKeys_step_removeJob]
    | addActive sid info => rw [netPendingKeys, pendingKeys_step_addActive]
    | removeActive sid => rw [netPendingKeys, pendingKeys_step_removeActive]

theorem activeKeys_runOps (ops : List GroupOp) (s : GroupState) :
    (runOps s ops).activeKeys = netActiveKeys s.activeKeys ops := by
  induction ops generalizing s with
  | nil => rfl
  | cons op rest ih =>
    have h1 : runOps s (op :: rest) = runOps (stepOp s op) rest := rfl
    rw [h1, ih]
    cases op with
    | addJob j => rw [netActiveKeys, activeKeys_step_addJob]
    | removeJob j => rw [netActiveKeys, activeKeys_step_removeJob]
    | addActive sid info => rw [netActiveKeys, activeKeys_step_addActive]
    | removeActive sid => rw [netActiveKeys, activeKeys_step_removeActive]

theorem netPendingKeys_subset (ops : List GroupOp) (init : Finset String) :
    netPendingKeys init ops ⊆ init ∪ jobAddIds ops := by
  induction ops generalizing init with
  | nil =>
    rw [netPendingKeys, jobAddIds]
    exact Finset.subset_union_left
  | cons op rest ih =>
    cases op with
    | addJob j =>
      rw [netPendingKeys, jobAddIds]
      refine (ih (insert j init)).trans ?_
      intro x hx
      simp only [Finset.mem_union, Finset.mem_insert] at hx ⊢
      tauto
    | removeJob j =>
      rw [netPendingKeys, jobAddIds]
      refine (ih (init.erase j)).trans ?_
      exact Finset.union_subset_union_left (Finset.erase_subset j init)
    | addActive sid info =>
      rw [netPendingKeys, jobAddIds]
      exact ih init
    | removeActive sid =>
      rw [netPendingKeys, jobAddIds]
      exact ih init

theorem netActiveKeys_subset (ops : List GroupOp) (init : Finset String) :
    netActiveKeys init ops ⊆ init ∪ activeAddIds ops := by
  induction ops generalizing init with
  | nil =>
    rw [netActiveKeys, activeAddIds]
    exact Finset.subset_union_left
  | cons op rest ih =>
    cases op with
    | addJob j =>
      rw [netActiveKeys, activeAddIds]
      exact ih init
    | removeJob j =>
      rw [netActiveKeys, activeAddIds]
      exact ih init
    | addActive sid info =>
      rw [netActiveKeys, activeAddIds]
      refine (ih (insert sid init)).trans ?_
      intro x hx
      simp only [Finset.mem_union, Finset.mem_insert] at hx ⊢
      tauto
    | removeActive sid =>
      rw [netActiveKeys, activeAddIds]
      refine (ih (init.erase sid)).trans ?_
      exact Finset.union_subset_union_left (Finset.erase_subset sid init)

/-- C1: mark_executed(p) reads the clock exactly once and writes that
one timestamp to both policy_touched[p] and group_touched; afterwards
group_touched equals policy_touched[p]. -/
theorem mark_executed_single_read_same_timestamp (s : GroupState) (p : String) :
    (s.mark_executed p).group_touched = s.clock s.tick
    ∧ ((s.mark_executed p).policy_touched.lookup p) = some (s.clock s.tick)
    ∧ (s.mark_executed p).tick = s.tick + 1
    ∧ ((s.mark_executed p).policy_touched.lookup p)
        = some ((s.mark_executed p).group_touched) := by
  refine ⟨rfl, ?_, rfl, ?_⟩
  · exact lookup_dictSet s.policy_touched p (s.clock s.tick)
  · exact lookup_dictSet s.policy_touched p (s.clock s.tick)

/-- C2 (amended): after any call sequence, pending and active hold
exactly the keys added and not subsequently removed (each tracked by its
own operations); a double-add or remove-missing raises an
AssertionError and leaves the state unchanged.  Disjointness of the two
key sets is not checked by the code; it holds provided the ids added to
pending and the ids added to active (together with the respective
initial key sets) do not overlap. -/
theorem group_collections_amended (s : GroupState) (ops : List GroupOp)
    (hdisj : (s.pendingKeys ∪ jobAddIds ops) ∩ (s.activeKeys ∪ activeAddIds ops) = ∅) :
    ((runOps s ops).pendingKeys = netPendingKeys s.pendingKeys ops
      ∧ (runOps s ops).activeKeys = netActiveKeys s.activeKeys ops)
    ∧ ((∀ j, j ∈ s.pendingKeys →
          s.add_job j = .error ⟨"Job exists: " ++ j⟩ ∧ stepOp s (.addJob j) = s)
       ∧ (∀ j, j ∉ s.pendingKeys →
          s.remove_job j = .error ⟨"Job doesn\x27t exist: " ++ j⟩
            ∧ stepOp s (.removeJob j) = s)
       ∧ (∀ a info, a ∈ s.activeKeys →
          s.add_active a info = .error ⟨"Server already exists: " ++ a⟩
            ∧ stepOp s (.addActive a info) = s)
       ∧ (∀ a, a ∉ s.activeKeys →
          s.remove_active a = .error ⟨"Server does not exist: " ++ a⟩
            ∧ stepOp s (.removeActive a) = s))
    ∧ (runOps s ops).pendingKeys ∩ (runOps s ops).activeKeys = ∅ := by
  refine ⟨⟨pendingKeys_runOps ops s, activeKeys_runOps ops s⟩, ⟨?_, ?_, ?_, ?_⟩, ?_⟩
  · intro j h
    exact ⟨add_job_present s j h, by simp [stepOp, add_job_present s j h]⟩
  · intro j h
    exact ⟨remove_job_absent s j h, by simp [stepOp, remove_job_absent s j h]⟩
  · intro a info h
    exact ⟨add_active_present s a info h, by simp [stepOp, add_active_present s a info h]⟩
  · intro a h
    exact ⟨remove_active_absent s a h, by simp [stepOp, remove_active_absent s a h]⟩
  · rw [Finset.eq_empty_iff_forall_not_mem]
    intro x hx
    rw [Finset.mem_inter, pendingKeys_runOps, activeKeys_runOps] at hx
    have h1 : x ∈ s.pendingKeys ∪ jobAddIds ops :=
      netPendingKeys_subset ops s.pendingKeys hx.1
    have h2 : x ∈ s.activeKeys ∪ activeAddIds ops :=
      netActiveKeys_subset ops s.activeKeys hx.2
    have hmem : x ∈ (s.pendingKeys ∪ jobAddIds ops) ∩ (s.activeKeys ∪ activeAddIds ops) :=
      Finset.mem_inter.mpr ⟨h1, h2⟩
    rw [hdisj] at hmem
    exact absurd hmem (Finset.not_mem_empty x)

/-- Concrete instantiation of group_collections_amended: from a state
with active key x and pending key j, running add_job a then remove_job j
nets pending to the added key and keeps the key sets disjoint. -/
theorem group_collections_amended_witness :
    (runOps (mkSample [("x", [])] [("j", [])])
        [.addJob "a", .removeJob "j"]).pendingKeys
      = netPendingKeys (mkSample [("x", [])] [("j", [])]).pendingKeys
          [.addJob "a", .removeJob "j"]
    ∧ (runOps (mkSample [("x", [])] [("j", [])])
        [.addJob "a", .removeJob "j"]).pendingKeys
      ∩ (runOps (mkSample [("x", [])] [("j", [])])
          [.addJob "a", .removeJob "j"]).activeKeys = ∅ :=
  ⟨(group_collections_amended (mkSample [("x", [])] [("j", [])])
      [.addJob "a", .removeJob "j"] (by decide)).1.1,
   (group_collections_amended (mkSample [("x", [])] [("j", [])])
      [.addJob "a", .removeJob "j"] (by decide)).2.2⟩

/-- C2 counterexample: add_job does not look at active and add_active
does not look at pending, so adding the same id a as a job and then as
an active server leaves a in both collections — the key sets of pending
and active do not remain disjoint. -/
theorem pending_active_disjoint_counterexample :
    ("a" ∈ (runOps (mkSample [] []) [.addJob "a", .addActive "a" []]).pendingKeys
      ∧ "a" ∈ (runOps (mkSample [] []) [.addJob "a", .addActive "a" []]).activeKeys)
    ∧ (runOps (mkSample [] []) [.addJob "a", .addActive "a" []]).pendingKeys
        ∩ (runOps (mkSample [] []) [.addJob "a", .addActive "a" []]).activeKeys ≠ ∅ := by
  decide

/-- C3: get_capacity returns the dict with current capacity the number
of active keys, pending capacity the number of pending keys and desired
capacity their sum (key-set cardinalities, given the dict key-uniqueness
invariant), and its value is independent of the desired field. -/
theorem get_capacity_spec (s : GroupState)
    (ha : (s.active.map Prod.fst).Nodup) (hp : (s.pending.map Prod.fst).Nodup) :
    s.get_capacity =
      [("current_capacity", s.activeKeys.card),
       ("pending_capacity", s.pendingKeys.card),
       ("desired_capacity", s.activeKeys.card + s.pendingKeys.card)]
    ∧ ∀ d : Int, GroupState.get_capacity { s with desired := d } = s.get_capacity := by
  have hca : s.activeKeys.card = s.active.length := by
    unfold GroupState.activeKeys keysOf
    rw [List.toFinset_card_of_nodup ha, List.length_map]
  have hcp : s.pendingKeys.card = s.pending.length := by
    unfold GroupState.pendingKeys keysOf
    rw [List.toFinset_card_of_nodup hp, List.length_map]
  constructor
  · simp [GroupState.get_capacity, hca, hcp]
  · intro d
    rfl

/-- Concrete instantiation of get_capacity_spec: a state with 1 active
server and 2 pending jobs reports capacities 1, 2 and 3. -/
theorem get_capacity_spec_witness :
    ((mkSample [("s1", [])] [("j1", []), ("j2", [])]).active.map Prod.fst).Nodup
    ∧ ((mkSample [("s1", [])] [("j1", []), ("j2", [])]).pending.map Prod.fst).Nodup
    ∧ (mkSample [("s1", [])] [("j1", []), ("j2", [])]).get_capacity =
      [("current_capacity",
          (mkSample [("s1", [])] [("j1", []), ("j2", [])]).activeKeys.card),
       ("pending_capacity",
          (mkSample [("s1", [])] [("j1", []), ("j2", [])]).pendingKeys.card),
       ("desired_capacity",
          (mkSample [("s1", [])] [("j1", []), ("j2", [])]).activeKeys.card
            + (mkSample [("s1", [])] [("j1", []), ("j2", [])]).pendingKeys.card)] :=
  ⟨by decide, by decide,
   (get_capacity_spec (mkSample [("s1", [])] [("j1", []), ("j2", [])])
      (by decide) (by decide)).1⟩

/-- C10: for a server id not already active, add_active stores the given
info dict under the id; a created timestamp read from the clock is added
only when the dict has no created key, and an existing created value is
preserved unchanged (the other entries are kept either way). -/
theorem add_active_created_spec (s : GroupState) (sid : String) (info : Info)
    (h : sid ∉ s.activeKeys) :
    ((info.lookup "created").isSome →
      s.add_active sid info = .ok { s with
        tick := s.tick + 1
        active := s.active ++ [(sid, info)] })
    ∧ ((info.lookup "created") = none →
      s.add_active sid info = .ok { s with
        tick := s.tick + 1
        active := s.active ++ [(sid, info ++ [("created", s.clock s.tick)])] }) := by
  constructor
  · intro hc
    rw [add_active_absent s sid info h]
    simp [dictSetdefault, hc]
  · intro hc
    rw [add_active_absent s sid info h]
    simp [dictSetdefault, hc]

/-- Concrete instantiation of add_active_created_spec: an info dict with
a created key keeps it; an info dict without one gets the clock value. -/
theorem add_active_created_spec_witness :
    (mkSample [] []).add_active "s1" [("created", "T"), ("name", "srv")]
      = .ok { mkSample [] [] with
              tick := (mkSample [] []).tick + 1
              active := (mkSample [] []).active
                ++ [("s1", [("created", "T"), ("name", "srv")])] }
    ∧ (mkSample [] []).add_active "s2" [("name", "srv")]
      = .ok { mkSample [] [] with
              tick := (mkSample [] []).tick + 1
              active := (mkSample [] []).active
                ++ [("s2", [("name", "srv"),
                            ("created", (mkSample [] []).clock (mkSample [] []).tick)])] } :=
  ⟨(add_active_created_spec (mkSample [] []) "s1" [("created", "T"), ("name", "srv")]
      (by decide)).1 (by decide),
   (add_active_created_spec (mkSample [] []) "s2" [("name", "srv")]
      (by decide)).2 rfl⟩

/-- C7: constructing a GroupState with group_touched None or the empty
string (falsy) stores the sentinel 0001-01-01T00:00:00Z; a non-empty
timestamp string is stored unchanged. -/
theorem group_touched_sentinel (tid gid gn : String)
    (active pending : List (String × Info)) (pt : List (String × String))
    (pa : Bool) (st : ScalingGroupStatus) (su : Bool) (er : List String)
    (d : Int) (clock : Nat → String) :
    (mkGroupState tid gid gn active pending none pt pa st su er (.int d) clock).map
        GroupState.group_touched = .ok timestampMIN
    ∧ (mkGroupState tid gid gn active pending (some "") pt pa st su er
        (.int d) clock).map GroupState.group_touched = .ok timestampMIN
    ∧ ∀ ts : String, ts ≠ "" →
        (mkGroupState tid gid gn active pending (some ts) pt pa st su er
          (.int d) clock).map GroupState.group_touched = .ok ts := by
  refine ⟨rfl, ?_, ?_⟩
  · simp [mkGroupState, pyOrStr, lenient_ascii_text, Except.map]
  · intro ts hts
    simp [mkGroupState, pyOrStr, lenient_ascii_text, hts, Except.map]

/-- Concrete instantiation of group_touched_sentinel at None, the empty
string and a real timestamp. -/
theorem group_touched_sentinel_witness :
    (mkGroupState "t" "g" "n" [] [] none [] false .ACTIVE false [] (.int 0)
        (fun _ => "c")).map GroupState.group_touched = .ok timestampMIN
    ∧ (mkGroupState "t" "g" "n" [] [] (some "") [] false .ACTIVE false [] (.int 0)
        (fun _ => "c")).map GroupState.group_touched = .ok timestampMIN
    ∧ (mkGroupState "t" "g" "n" [] [] (some "2015-06-01T00:00:00Z") [] false .ACTIVE
        false [] (.int 0) (fun _ => "c")).map GroupState.group_touched
      = .ok "2015-06-01T00:00:00Z" :=
  ⟨(group_touched_sentinel "t" "g" "n" [] [] [] false .ACTIVE false [] 0
      (fun _ => "c")).1,
   (group_touched_sentinel "t" "g" "n" [] [] [] false .ACTIVE false [] 0
      (fun _ => "c")).2.1,
   (group_touched_sentinel "t" "g" "n" [] [] [] false .ACTIVE false [] 0
      (fun _ => "c")).2.2 "2015-06-01T00:00:00Z" (by decide)⟩

/-- C9 counterexample: the constructor validates desired only with
instance_of(int), so a GroupState with a negative desired is accepted:
passing -1 succeeds and -1 is stored, although -1 < 0. -/
theorem desired_negative_accepted :
    (mkGroupState "t" "g" "n" [] [] none [] false .ACTIVE false [] (.int (-1))
        (fun _ => "c")).map GroupState.desired = .ok (-1)
    ∧ ((-1 : Int) < 0) :=
  ⟨rfl, by decide⟩

/-- C9 (amended): the constructor checks desired to be an int — any int,
negative included, is accepted and stored unchanged, while a non-int
value raises TypeError.  Non-negativity is not enforced. -/
theorem desired_validator_accepts_any_int (tid gid gn : String)
    (active pending : List (String × Info)) (gt : Option String)
    (pt : List (String × String)) (pa : Bool) (st : ScalingGroupStatus)
    (su : Bool) (er : List String) (d : Int) (u : String) (clock : Nat → String) :
    (mkGroupState tid gid gn active pending gt pt pa st su er (.int d) clock).map
        GroupState.desired = .ok d
    ∧ mkGroupState tid gid gn active pending gt pt pa st su er (.str u) clock
      = .error ⟨"\x27desired\x27 must be <type \x27int\x27>"⟩
    ∧ mkGroupState tid gid gn active pending gt pt pa st su er .noneVal clock
      = .error ⟨"\x27desired\x27 must be <type \x27int\x27>"⟩ :=
  ⟨rfl, rfl, rfl⟩

/-- C4 (code bug): on any non-empty reasons list — here one reason
wrapping NoSuchCLBError with lb_id 12 — present_reasons raises
TypeError, because errors.py:16 passes the zero-argument lambda to
filter instead of None; the per-reason formatting itself produces the
documented strings (shown by the middle conjuncts, and by the last
conjunct, which applies the intended filter(None, ...) to the mapped
messages), and only the empty reasons list returns normally. -/
theorem present_reasons_lambda_bug :
    present_reasons [.exception ⟨"NoSuchCLBError", .noSuchCLBError "12", "tb"⟩]
      = .error ⟨"<lambda>() takes no arguments (1 given)"⟩
    ∧ present_reason (.exception ⟨"NoSuchCLBError", .noSuchCLBError "12", "tb"⟩)
      = some "Cloud Load Balancer does not exist: 12"
    ∧ present_reason (.exception ⟨"CLBDeletedError", .clbDeletedError "7", "tb"⟩)
      = some "Cloud Load Balancer is currently being deleted: 7"
    ∧ present_reason (.otherReason "UserMessage") = none
    ∧ present_reasons [] = .ok []
    ∧ pyFilter .noneBuiltin
        ([ErrorReason.exception ⟨"NoSuchCLBError", .noSuchCLBError "12", "tb"⟩,
          ErrorReason.otherReason "UserMessage"].map present_reason)
      = .ok [some "Cloud Load Balancer does not exist: 12"] :=
  ⟨rfl, rfl, rfl, rfl, rfl, rfl⟩

/-- C6: the message part of an UpstreamError wrapping an APIError comes
from reading the message key under the first key of the JSON body;
whenever the body is not of that shape — not JSON at all, a JSON
non-object, an empty object, or a first value without a message key —
the part is exactly the literal fallback string. -/
theorem upstream_parse_message_spec (p : Option JValue) :
    (∀ k inner m, p = some (.jobj [(k, .jobj inner)]) →
        inner.lookup "message" = some m → parse_api_error_message p = m)
    ∧ (p = none →
        parse_api_error_message p = .jstr "Could not parse API error body")
    ∧ (p = some (.jobj []) →
        parse_api_error_message p = .jstr "Could not parse API error body")
    ∧ (∀ k inner rest, p = some (.jobj ((k, .jobj inner) :: rest)) →
        inner.lookup "message" = none →
        parse_api_error_message p = .jstr "Could not parse API error body")
    ∧ (∀ str, p = some (.jstr str) →
        parse_api_error_message p = .jstr "Could not parse API error body") := by
  refine ⟨?_, ?_, ?_, ?_, ?_⟩
  · rintro k inner m rfl hm
    simp [parse_api_error_message, hm]
  · rintro rfl
    rfl
  · rintro rfl
    rfl
  · rintro k inner rest rfl hm
    simp [parse_api_error_message, hm]
  · rintro str rfl
    rfl

/-- Concrete instantiation of upstream_parse_message_spec: the inner
message of a computeFault body is extracted, and a non-JSON body yields
the fallback literal. -/
theorem upstream_parse_message_spec_witness :
    parse_api_error_message
        (some (.jobj [("computeFault", .jobj [("message", .jstr "Server not found")])]))
      = .jstr "Server not found"
    ∧ parse_api_error_message none = .jstr "Could not parse API error body" :=
  ⟨(upstream_parse_message_spec
      (some (.jobj [("computeFault", .jobj [("message", .jstr "Server not found")])]))).1
        "computeFault" [("message", .jstr "Server not found")]
        (.jstr "Server not found") rfl rfl,
   (upstream_parse_message_spec none).2.1 rfl⟩

theorem effectiveLimit_pos (limit cfg : Option Nat) : 0 < effectiveLimit limit cfg := by
  rcases limit with _ | n
  · rcases cfg with _ | c
    · decide
    · by_cases h : c = 0
      · subst h
        decide
      · simp [effectiveLimit, falsyOrNat, h]
        omega
  · by_cases h : n = 0
    · subst h
      rcases cfg with _ | c
      · decide
      · by_cases h2 : c = 0
        · subst h2
          decide
        · simp [effectiveLimit, falsyOrNat, h2]
          omega
    · simp [effectiveLimit, falsyOrNat, h]
      omega

/-- C5 counterexample: a full page requested with a marker — five
records, limit 5, marker m — yields a links list holding only the next
entry and no self entry, because http.py:210 appends the self-style
link only when the marker is falsy. -/
theorem get_collection_links_marker_counterexample :
    ((get_collection_links
        [⟨"1", []⟩, ⟨"2", []⟩, ⟨"3", []⟩, ⟨"4", []⟩, ⟨"5", []⟩]
        "http://as.example.org/v1.0/t/groups" (some "self") (some 5) none
        (some "m")).map Link.rel).contains "self" = false
    ∧ get_collection_links
        [⟨"1", []⟩, ⟨"2", []⟩, ⟨"3", []⟩, ⟨"4", []⟩, ⟨"5", []⟩]
        "http://as.example.org/v1.0/t/groups" (some "self") (some 5) none
        (some "m")
      = [⟨"http://as.example.org/v1.0/t/groups?limit=5&marker=5", "next"⟩] :=
  ⟨rfl, rfl⟩

/-- C5 (amended): when the marker is falsy (and rel is self), the links
list always contains the self entry, and it contains a next entry
exactly when the collection holds at least the effective limit of
records, the next marker being the id of the record at position limit
(index limit - 1, in range since the effective limit is positive). -/
theorem get_collection_links_amended (collection : List CollRec) (url : String)
    (limit cfg : Option Nat) (marker : Option String)
    (hm : isFalsyOptStr marker = true) :
    (Link.mk url "self" ∈ get_collection_links collection url (some "self") limit cfg marker)
    ∧ (∀ r, effectiveLimit limit cfg ≤ collection.length →
        collection[effectiveLimit limit cfg - 1]? = some r →
        Link.mk (url ++ "?" ++ urlencodeLimitMarker (effectiveLimit limit cfg) r.id) "next"
          ∈ get_collection_links collection url (some "self") limit cfg marker)
    ∧ (collection.length < effectiveLimit limit cfg →
        get_collection_links collection url (some "self") limit cfg marker
          = [Link.mk url "self"])
    ∧ (∀ l ∈ get_collection_links collection url (some "self") limit cfg marker,
        l.rel = "next" → effectiveLimit limit cfg ≤ collection.length)
    ∧ 0 < effectiveLimit limit cfg := by
  have hunf : get_collection_links collection url (some "self") limit cfg marker
      = if effectiveLimit limit cfg ≤ collection.length then
          [Link.mk url "self"]
            ++ [Link.mk (url ++ "?" ++ urlencodeLimitMarker (effectiveLimit limit cfg)
                  (((collection[effectiveLimit limit cfg - 1]?).map CollRec.id).getD ""))
                "next"]
        else [Link.mk url "self"] := by
    show (if effectiveLimit limit cfg ≤ collection.length then
        (if isFalsyOptStr marker then [Link.mk url "self"] else [])
          ++ [Link.mk (url ++ "?" ++ urlencodeLimitMarker (effectiveLimit limit cfg)
                (((collection[effectiveLimit limit cfg - 1]?).map CollRec.id).getD ""))
              "next"]
      else (if isFalsyOptStr marker then [Link.mk url "self"] else [])) = _
    rw [hm]
    simp
  refine ⟨?_, ?_, ?_, ?_, effectiveLimit_pos limit cfg⟩
  · rw [hunf]
    by_cases hlen : effectiveLimit limit cfg ≤ collection.length
    · rw [if_pos hlen]
      exact List.mem_append_left _ (List.mem_singleton_self _)
    · rw [if_neg hlen]
      exact List.mem_singleton_self _
  · intro r hlen hr
    rw [hunf, if_pos hlen]
    have hid : ((collection[effectiveLimit limit cfg - 1]?).map CollRec.id).getD "" = r.id := by
      rw [hr]
      rfl
    rw [hid]
    exact List.mem_append_right _ (List.mem_singleton_self _)
  · intro hlt
    rw [hunf, if_neg (not_le.mpr hlt)]
  · intro l hl hrel
    by_cases hlen : effectiveLimit limit cfg ≤ collection.length
    · exact hlen
    · rw [hunf, if_neg hlen, List.mem_singleton] at hl
      subst hl
      simp at hrel

/-- Concrete instantiation of get_collection_links_amended: two records
with limit 2 and no marker produce the self entry and the next entry
with the id of the second record as the next marker. -/
theorem get_collection_links_amended_witness :
    Link.mk "u" "self"
      ∈ get_collection_links [⟨"a", []⟩, ⟨"b", []⟩] "u" (some "self") (some 2) none none
    ∧ Link.mk ("u" ++ "?" ++ urlencodeLimitMarker (effectiveLimit (some 2) none)
          (CollRec.mk "b" []).id) "next"
      ∈ get_collection_links [⟨"a", []⟩, ⟨"b", []⟩] "u" (some "self") (some 2) none none :=
  ⟨(get_collection_links_amended [⟨"a", []⟩, ⟨"b", []⟩] "u" (some 2) none none rfl).1,
   (get_collection_links_amended [⟨"a", []⟩, ⟨"b", []⟩] "u" (some 2) none none rfl).2.1
      ⟨"b", []⟩ (by decide) rfl⟩

theorem string_data_append (a b : String) : (a ++ b).data = a.data ++ b.data := rfl

theorem string_eq_of_data {a b : String} (h : a.data = b.data) : a = b := by
  cases a
  cases b
  exact congrArg String.mk h

theorem concat_quote_chars_safe (l : List Char) (h : l.all isQuoteSafe = true) :
    concatAll (l.map fun c =>
      if isQuoteSafe c then String.singleton c
      else concatAll ((utf8Bytes c).map percentEncodeByte)) = String.mk l := by
  induction l with
  | nil => rfl
  | cons c rest ih =>
    simp only [List.all_cons, Bool.and_eq_true] at h
    simp only [List.map_cons, concatAll, h.1, if_true, ih h.2]
    rfl

theorem pyQuote_safe (s : String) (h : s.data.all isQuoteSafe = true) :
    pyQuote s = s := by
  unfold pyQuote
  rw [concat_quote_chars_safe s.data h]

/-- C8: the capability href of get_autoscale_links is exactly the
configured url_root (given without trailing slashes, as rstrip leaves
it) followed by the api-version segment, the literal execute segment,
the capability version, the hash and a trailing slash — provided the
version strings and the hash consist of quote-safe characters, so that
percent-encoding leaves them unchanged. -/
theorem capability_url_format (url_root api cv ch : String)
    (hroot : rstripSlashes url_root = url_root)
    (hapi : api.data.all isQuoteSafe = true)
    (hcv : cv.data.all isQuoteSafe = true)
    (hch : ch.data.all isQuoteSafe = true) :
    capability_href url_root api cv ch
      = url_root ++ "/v" ++ api ++ "/execute/" ++ cv ++ "/" ++ ch ++ "/" := by
  have hqapi : pyQuote ("v" ++ api) = "v" ++ api := by
    apply pyQuote_safe
    rw [string_data_append, List.all_append, hapi]
    decide
  have hqcv : pyQuote cv = cv := pyQuote_safe cv hcv
  have hqch : pyQuote ch = ch := pyQuote_safe ch hch
  have hqex : pyQuote "execute" = "execute" := rfl
  have hqe : pyQuote "" = "" := rfl
  unfold capability_href append_segments
  rw [hroot]
  simp only [List.map_cons, List.map_nil, hqapi, hqex, hqcv, hqch, hqe]
  simp only [pyJoin]
  rw [show ("/v" : String) = "/" ++ "v" from rfl,
      show ("/execute/" : String) = "/" ++ ("execute" ++ "/") from rfl]
  apply string_eq_of_data
  have hnil : ("" : String).data = [] := rfl
  simp only [string_data_append, hnil, List.append_assoc, List.append_nil]

/-- Concrete instantiation of capability_url_format at a url root, api
version 1.0, capability version 1 and a hex hash. -/
theorem capability_url_format_witness :
    capability_href "https://as.example.org" "1.0" "1" "a1b2c3d4"
      = "https://as.example.org" ++ "/v" ++ "1.0" ++ "/execute/" ++ "1" ++ "/"
          ++ "a1b2c3d4" ++ "/" :=
  capability_url_format "https://as.example.org" "1.0" "1" "a1b2c3d4"
    rfl (by decide) (by decide) (by decide)

end Otter
